import Mathlib

/-!
Verification of the `kapak` program (src/kapak/main.go): identifier
extraction, grid/pagination geometry, image acquisition with fallback,
format detection, grid-size parsing and ASCII transliteration.

The Go source is shallowly embedded: pure functions become Lean
functions over `List Char` / `String` / `Nat` / `Int` / `ℚ`; the HTTP
layer (`download`) is abstracted into an oracle `net : String → Option
(List Nat)` returning the body bytes on a successful (status-200)
request and `none` on any failure, and the image library's
`image.DecodeConfig` into an oracle `decode : List Nat → Option
ImgConfig` returning the decoded header (format name and pixel size) or
`none` when the header cannot be decoded.  Go's `unicode.IsDigit` is
modelled on the ASCII range (`Char.isDigit`); code points of the Unicode
Nd category outside ASCII are not modelled.
-/

namespace Kapak

/-! ## Identifier extraction (main.go: isAllDigits, extractProductCode, scanIDs) -/

/-- Embedding of `isAllDigits` from main.go lines 117–127: `false` on the empty
string, otherwise true iff every rune is a decimal digit. -/
def isAllDigits (s : List Char) : Bool :=
  if s.length = 0 then false
  else s.all Char.isDigit

/-- The fixed marker substring `"urunno="` searched by
`extractProductCode`. -/
def target : List Char := ['u', 'r', 'u', 'n', 'n', 'o', '=']

/-- Result of `strings.Index line target` followed by the slice
`line[idx+len(target):]`, as used in main.go lines 100–101: `some rest`
where `rest` is what follows the FIRST occurrence of the marker, `none`
when the marker does not occur.  (The marker is pure ASCII, so Go's
byte index always falls on a rune boundary and the byte-level slice
agrees with this rune-level model.) -/
def restAfterTarget : List Char → Option (List Char)
  | [] => none
  | c :: cs =>
    if target.isPrefixOf (c :: cs) then some ((c :: cs).drop target.length)
    else restAfterTarget cs

/-- Embedding of `extractProductCode` from main.go lines 95–115.  The Go function
returns `""` when no code is found; here that sentinel is the empty
list. -/
def extractProductCode (line : List Char) : List Char :=
  if isAllDigits line then line
  else
    match restAfterTarget line with
    | some rest =>
      let sb := rest.takeWhile Char.isDigit
      if 0 < sb.length then sb else []
    | none => []

/-- Embedding of `strings.TrimSpace` (ASCII whitespace) as applied in `scanIDs`. -/
def trimSpace (l : List Char) : List Char :=
  ((l.dropWhile Char.isWhitespace).reverse.dropWhile Char.isWhitespace).reverse

/-- Embedding of `scanIDs` from main.go lines 79–93, with the `bufio.Scanner` already
split into lines: trim each line, skip blank lines and lines starting
with `#`, extract a product code and keep it when non-empty. -/
def scanIDs (lines : List (List Char)) : List (List Char) :=
  lines.filterMap (fun raw =>
    let line := trimSpace raw
    if line = [] then none
    else if line.head? = some '#' then none
    else
      let extractedID := extractProductCode line
      if extractedID = [] then none else some extractedID)

/-- String-level wrapper of `scanIDs`, for stating concrete examples. -/
def scanIDsStr (lines : List String) : List String :=
  (scanIDs (lines.map String.toList)).map List.asString

/-! ## Grid geometry and pagination (main.go lines 246–262) -/

/-- The count `cellsPerPage := rows * cols` (main.go line 246). -/
def cellsPerPage (rows cols : Nat) : Nat := rows * cols

/-- Zero-based index of the page item `i` lands on: `i / cellsPerPage`. -/
def pageOf (cpp i : Nat) : Nat := i / cpp

/-- The loop's `pageIndex := i % cellsPerPage` (main.go line 257): the
item's cell index within its page. -/
def localIndex (cpp i : Nat) : Nat := i % cpp

/-- The row `row := pageIndex / cols` (main.go line 258). -/
def rowOf (cpp cols i : Nat) : Nat := localIndex cpp i / cols

/-- The column `col := pageIndex % cols` (main.go line 259). -/
def colOf (cpp cols i : Nat) : Nat := localIndex cpp i % cols

/-- The loop's page-break test `i > 0 && i % cellsPerPage == 0`
(main.go line 253). -/
def newPageAt (cpp i : Nat) : Bool := 0 < i && i % cpp = 0

/-- Number of pages produced when the loop processes items `0..N-1`:
one initial `AddPage` (main.go line 242) plus one `AddPage` for every
index at which the page-break test fires (main.go lines 253–255). -/
def pagesProduced (cpp N : Nat) : Nat :=
  1 + ((List.range N).filter (newPageAt cpp)).length

/-- The (pageIndex, row, col) triple assigned to item `i`. -/
def cellTriple (cpp cols i : Nat) : Nat × Nat × Nat :=
  (pageOf cpp i, rowOf cpp cols i, colOf cpp cols i)

/-! ## Fit-rectangle computation (main.go lines 280–290), over ℚ

The Go code computes in `float64`; the model uses exact rational
arithmetic, the idealisation under which the spec's "within tolerance"
clauses become exact equalities. -/

/-- The display rectangle: size and top-left position (the code's
`centerX`/`centerY` pair is the top-left corner at which the image is
placed). -/
structure FitRect where
  w : ℚ
  h : ℚ
  cx : ℚ
  cy : ℚ
  deriving DecidableEq

/-- Lines 280–290 of main.go: `aspect := ih/iw`; width-first candidate
`displayW := cellWidth - padding`, `displayH := displayW * aspect`;
clamp to `cellHeight - padding` when the candidate height exceeds it;
then center in the cell at `(x, y)`. -/
def fitRect (iw ih cellWidth cellHeight padding x y : ℚ) : FitRect :=
  let aspect := ih / iw
  let displayW := cellWidth - padding
  let displayH := displayW * aspect
  let (displayW, displayH) :=
    if displayH > cellHeight - padding then
      ((cellHeight - padding) / aspect, cellHeight - padding)
    else (displayW, displayH)
  { w := displayW, h := displayH
    cx := x + (cellWidth - displayW) / 2
    cy := y + (cellHeight - displayH) / 2 }

/-! ## Grid-size parsing (main.go lines 59–77) -/

/-- Value of a list of ASCII digit characters, most significant first. -/
def digitsToNat (l : List Char) : Nat :=
  l.foldl (fun acc c => 10 * acc + (c.toNat - '0'.toNat)) 0

/-- Constant `math.MaxInt64`: Go's `strconv.Atoi` on a 64-bit platform fails
with `ErrRange` outside `[-2^63, 2^63-1]`. -/
def maxInt64 : Int := 9223372036854775807

def minInt64 : Int := -9223372036854775808

/-- The unsigned core of `strconv.Atoi`: at least one ASCII decimal
digit and nothing else, with the 64-bit range check; `none` models a
non-nil `err`. -/
def atoiCore (ds : List Char) (neg : Bool) : Option Int :=
  if ds.length = 0 then none
  else if ds.all Char.isDigit then
    let v : Int := if neg then -(digitsToNat ds : Int) else (digitsToNat ds : Int)
    if v < minInt64 ∨ maxInt64 < v then none else some v
  else none

/-- Embedding of `strconv.Atoi`: an optional single leading sign followed by the
digit core. -/
def goAtoi (s : List Char) : Option Int :=
  match s with
  | '+' :: rest => atoiCore rest false
  | '-' :: rest => atoiCore rest true
  | l => atoiCore l false

/-- Embedding of `strings.Split` with the one-character separator `"x"` used by
`parseGridSize`: all substrings between occurrences of the separator,
empty parts kept, one part more than there are separators. -/
def splitOnChar (sep : Char) : List Char → List (List Char)
  | [] => [[]]
  | c :: cs =>
    if c = sep then [] :: splitOnChar sep cs
    else
      match splitOnChar sep cs with
      | r :: rs => (c :: r) :: rs
      | [] => [[c]]

/-- The parts `strings.Split(clean, "x")` of the trimmed, lower-cased
input (main.go lines 60–61); `strings.ToLower` is modelled per rune. -/
def gridParts (value : String) : List (List Char) :=
  splitOnChar 'x' ((trimSpace value.toList).map Char.toLower)

/-- Embedding of `parseGridSize` from main.go lines 59–77: trim and lower-case,
split on `"x"`, require exactly two parts, each a positive integer. -/
def parseGridSize (value : String) : Except String (Int × Int) :=
  if (gridParts value).length ≠ 2 then .error "grid size must be rowxcol"
  else
    match goAtoi ((gridParts value).getD 0 []),
        goAtoi ((gridParts value).getD 1 []) with
    | some rows, some cols =>
      if rows ≤ 0 then .error "row value must be positive"
      else if cols ≤ 0 then .error "column value must be positive"
      else .ok (rows, cols)
    | none, _ => .error "row value must be positive"
    | some rows, none =>
      if rows ≤ 0 then .error "row value must be positive"
      else .error "column value must be positive"

/-! ## ASCII transliteration (main.go lines 39–49) -/

/-- The per-character table of `toASCII`'s `strings.NewReplacer`: the
twelve Turkish diacritic letters; every pattern and replacement is a
single character, so the replacer is a character map. -/
def trTable : Char → Option Char
  | 'ğ' => some 'g'
  | 'Ğ' => some 'G'
  | 'ü' => some 'u'
  | 'Ü' => some 'U'
  | 'ş' => some 's'
  | 'Ş' => some 'S'
  | 'ı' => some 'i'
  | 'İ' => some 'I'
  | 'ö' => some 'o'
  | 'Ö' => some 'O'
  | 'ç' => some 'c'
  | 'Ç' => some 'C'
  | _ => none

/-- Embedding of `toASCII` from main.go lines 39–49: replace each character that is
in the table, leave every other character unchanged. -/
def toASCII (s : String) : String :=
  ⟨s.toList.map (fun c => (trTable c).getD c)⟩

/-- The set of characters the replacer rewrites. -/
def turkishChars : List Char :=
  ['ğ', 'Ğ', 'ü', 'Ü', 'ş', 'Ş', 'ı', 'İ', 'ö', 'Ö', 'ç', 'Ç']

/-- ASCII character: code point below 128. -/
def isASCII (c : Char) : Bool := c.toNat < 128

/-! ## Image acquisition and rendering (main.go lines 129–174, 252–306)

`download` (lines 145–160) performs the request with the fixed
User-Agent and returns an error on request failure or non-200 status;
it is abstracted into the oracle `net`, with `net url = some bytes`
standing for a successful 200 response and `none` for any failure.
`image.DecodeConfig` is abstracted into `decode`; with only the jpeg
and png decoders registered (the blank imports), a successful decode
reports the registered format name and the header's pixel size. -/

/-- Bytes of an HTTP response body. -/
abbrev Bytes := List Nat

/-- The decoded image header: `image.Config` width/height plus the
format name returned by `image.DecodeConfig`. -/
structure ImgConfig where
  width : Nat
  height : Nat
  format : String
  deriving DecidableEq

/-- Template `drPrimaryURLFmt` interpolated with the identifier (main.go line
26 and line 130). -/
def primaryURL (id : String) : String :=
  "https://i.dr.com.tr/cache/500x400-0/originals/" ++ id ++ "-1.jpg"

/-- Template `drBackupURLFmt` interpolated with the identifier (main.go line 27
and line 136). -/
def backupURL (id : String) : String :=
  "https://i.dr.com.tr/cache/500x400-0/originals/" ++ id ++ ".jpg"

/-- Embedding of `strings.ToUpper` as a per-rune map (registered Go format names
are plain ASCII, where this agrees with Go's Unicode mapping). -/
def goToUpper (s : String) : String :=
  ⟨s.toList.map Char.toUpper⟩

/-- Embedding of `detectFormat` from main.go lines 162–174: "JPG" when the header
cannot be decoded, "JPG" for jpeg, "PNG" for png, otherwise the
uppercased format name. -/
def detectFormat (decode : Bytes → Option ImgConfig) (data : Bytes) : String :=
  match decode data with
  | none => "JPG"
  | some cfg =>
    if cfg.format = "jpeg" then "JPG"
    else if cfg.format = "png" then "PNG"
    else goToUpper cfg.format

/-- Embedding of `fetchDRImage` from main.go lines 129–143, instrumented with the
list of URLs attempted in order: try the primary URL; on its failure
(and only then) try the backup URL once; if both fail, the error
result models `"image not found"`. -/
def fetchDRImage (net : String → Option Bytes) (decode : Bytes → Option ImgConfig)
    (id : String) : Option (Bytes × String) × List String :=
  let url := primaryURL id
  match net url with
  | some data => (some (data, detectFormat decode data), [url])
  | none =>
    let urlBackup := backupURL id
    match net urlBackup with
    | some data => (some (data, detectFormat decode data), [url, urlBackup])
    | none => (none, [url, urlBackup])

/-- Constant `contentPaddingMM` (main.go line 32). -/
def contentPaddingMM : ℚ := 10

/-- Constants `pageMarginXMM` / `pageMarginYMM` (main.go lines 29–30). -/
def pageMarginXMM : ℚ := 20

def pageMarginYMM : ℚ := 20

/-- A4 landscape page size in mm as returned by `pdf.GetPageSize()`
for `fpdf.New("L", "mm", "A4", "")` (main.go lines 240, 244). -/
def pageWidthMM : ℚ := 297

def pageHeightMM : ℚ := 210

/-- The draw call the assembler issues for one item's content
(main.go lines 271–305), beyond the always-drawn border rectangle. -/
inductive RenderAction where
  /-- Call `pdf.ImageOptions` with the fetched format tag and the fitted
  rectangle (lines 292–296). -/
  | imageDraw (format : String) (rect : FitRect)
  /-- The `"INVALID FORMAT"` placeholder (line 276). -/
  | invalidFormat
  /-- The `"NOT FOUND"` placeholder plus the transliterated identifier
  (lines 299–304). -/
  | notFound (safeID : String)
  deriving DecidableEq

/-- Whether a draw call places an image (as opposed to a placeholder
label). -/
def RenderAction.isImageDraw : RenderAction → Bool
  | .imageDraw _ _ => true
  | _ => false

/-- The per-item body of the rendering loop (main.go lines 271–305):
fetch; on fetch success re-decode the header, drawing the
`"INVALID FORMAT"` placeholder when it fails and the fitted image when
it succeeds; on fetch failure draw the `"NOT FOUND"` placeholder.
Returns the draw action together with the URLs attempted. -/
def renderItem (net : String → Option Bytes) (decode : Bytes → Option ImgConfig)
    (cellWidth cellHeight x y : ℚ) (id : String) : RenderAction × List String :=
  match fetchDRImage net decode id with
  | (some (imgData, format), trace) =>
    match decode imgData with
    | none => (.invalidFormat, trace)
    | some imgConfig =>
      (.imageDraw format
        (fitRect (imgConfig.width : ℚ) (imgConfig.height : ℚ)
          cellWidth cellHeight contentPaddingMM x y), trace)
  | (none, trace) => (.notFound (toASCII id), trace)

/-- The width `cellWidth := (width - 2*pageMarginXMM) / cols` (main.go line 247). -/
def cellWidthMM (cols : Nat) : ℚ := (pageWidthMM - 2 * pageMarginXMM) / (cols : ℚ)

/-- The height `cellHeight := (height - 2*pageMarginYMM) / rows` (main.go line 248). -/
def cellHeightMM (rows : Nat) : ℚ := (pageHeightMM - 2 * pageMarginYMM) / (rows : ℚ)

/-- Cell origin `x := pageMarginXMM + col*cellWidth` (main.go line 261). -/
def cellX (cols col : Nat) : ℚ := pageMarginXMM + (col : ℚ) * cellWidthMM cols

/-- Cell origin `y := pageMarginYMM + row*cellHeight` (main.go line 262). -/
def cellY (rows row : Nat) : ℚ := pageMarginYMM + (row : ℚ) * cellHeightMM rows

/-- The `main` pipeline after flag parsing (main.go lines 194–306),
as far as it is observable here: parse the grid size (fatal on error,
before the HTTP client exists); scan identifiers (empty list is a
terminal condition); then render every item in order.  Returns the
outcome together with the full network trace; both error branches
carry an empty trace. -/
def runMain (net : String → Option Bytes) (decode : Bytes → Option ImgConfig)
    (sizeArg : String) (lines : List (List Char)) :
    Except String (List RenderAction) × List String :=
  match parseGridSize sizeArg with
  | .error e => (.error e, [])
  | .ok (rows, cols) =>
    let ids := scanIDs lines
    if ids = [] then (.error "No valid product code detected.", [])
    else
      let cpp := cellsPerPage rows.toNat cols.toNat
      let results : List (RenderAction × List String) :=
        ids.enum.map (fun (i, id) =>
          renderItem net decode (cellWidthMM cols.toNat) (cellHeightMM rows.toNat)
            (cellX cols.toNat (colOf cpp cols.toNat i))
            (cellY rows.toNat (rowOf cpp cols.toNat i))
            (List.asString id))
      (.ok (results.map Prod.fst), (results.map Prod.snd).flatten)

/-! # Theorems -/

theorem count_breaks (cpp : Nat) :
    ∀ N : Nat, 0 < N →
      ((List.range N).filter (newPageAt cpp)).length = (N - 1) / cpp := by
  intro N
  induction N with
  | zero => intro h; exact absurd h (by simp)
  | succ n ih =>
    intro _
    rcases Nat.eq_zero_or_pos n with hn | hn
    · subst hn
      simp [List.range_succ, newPageAt]
    · rw [List.range_succ, List.filter_append, List.length_append, ih hn]
      have hsub : n + 1 - 1 = n - 1 + 1 := by omega
      rw [hsub, Nat.succ_div]
      have hdvd : (cpp ∣ n - 1 + 1) ↔ (n % cpp = 0) := by
        have : n - 1 + 1 = n := by omega
        rw [this, Nat.dvd_iff_mod_eq_zero]
      by_cases hmod : n % cpp = 0
      · simp [newPageAt, hn, hmod, hdvd.mpr hmod]
      · have : ¬ (cpp ∣ n - 1 + 1) := fun h => hmod (hdvd.mp h)
        simp [newPageAt, hmod, this]

/-- C1: with `R > 0` rows, `C > 0` columns and `N > 0` items (the
program aborts before creating any page when no identifier was
extracted), the loop produces exactly `⌈N / (R*C)⌉` pages — one initial
page plus one per index with `i > 0 ∧ i % (R*C) = 0` — item `i` lands
on page `i / (R*C)`, and the map `i ↦ (pageIndex, row, col)` is
injective. -/
theorem C1_pagination_and_injectivity (R C N : Nat)
    (hR : 0 < R) (hC : 0 < C) (hN : 0 < N) :
    pagesProduced (cellsPerPage R C) N
        = (N + cellsPerPage R C - 1) / cellsPerPage R C ∧
    (∀ i : Nat, pagesProduced (cellsPerPage R C) (i + 1)
        = pageOf (cellsPerPage R C) i + 1) ∧
    Function.Injective (cellTriple (cellsPerPage R C) C) := by
  have hcpp : 0 < cellsPerPage R C := Nat.mul_pos hR hC
  refine ⟨?_, ?_, ?_⟩
  · unfold pagesProduced
    rw [count_breaks _ N hN]
    have h1 : N + cellsPerPage R C - 1 = (N - 1) + cellsPerPage R C := by omega
    rw [h1, Nat.add_div_right _ hcpp]
    omega
  · intro i
    unfold pagesProduced pageOf
    rw [count_breaks _ (i + 1) (Nat.succ_pos i)]
    simp [Nat.add_comm]
  · intro i j h
    unfold cellTriple pageOf rowOf colOf localIndex at h
    simp only [Prod.mk.injEq] at h
    obtain ⟨h1, h2, h3⟩ := h
    have hmod : i % cellsPerPage R C = j % cellsPerPage R C := by
      calc i % cellsPerPage R C
          = C * (i % cellsPerPage R C / C) + i % cellsPerPage R C % C :=
            (Nat.div_add_mod _ _).symm
        _ = C * (j % cellsPerPage R C / C) + j % cellsPerPage R C % C := by
            rw [h2, h3]
        _ = j % cellsPerPage R C := Nat.div_add_mod _ _
    calc i = cellsPerPage R C * (i / cellsPerPage R C) + i % cellsPerPage R C :=
          (Nat.div_add_mod _ _).symm
      _ = cellsPerPage R C * (j / cellsPerPage R C) + j % cellsPerPage R C := by
          rw [h1, hmod]
      _ = j := Nat.div_add_mod _ _

/-- Witness for C1 at R = 2, C = 3, N = 7: seven items on a 2×3 grid
give ⌈7/6⌉ = 2 pages. -/
theorem C1_pagination_witness :
    pagesProduced (cellsPerPage 2 3) 7
        = (7 + cellsPerPage 2 3 - 1) / cellsPerPage 2 3 ∧
    pagesProduced (cellsPerPage 2 3) 7 = 2 := by
  have h := C1_pagination_and_injectivity 2 3 7 (by decide) (by decide) (by decide)
  exact ⟨h.1, h.1.trans (by decide)⟩

/-- C3: the per-line extraction rules in priority order — an all-digit
line is returned whole; otherwise the maximal digit run after the
marker when non-empty; otherwise nothing — together with the claim's
five concrete examples (blank and `#` lines are skipped by the
scanner). -/
theorem C3_extraction_rules :
    (∀ line : List Char, isAllDigits line = true →
        extractProductCode line = line) ∧
    (∀ line rest : List Char, isAllDigits line = false →
        restAfterTarget line = some rest →
        0 < (rest.takeWhile Char.isDigit).length →
        extractProductCode line = rest.takeWhile Char.isDigit) ∧
    (∀ line rest : List Char, isAllDigits line = false →
        restAfterTarget line = some rest →
        (rest.takeWhile Char.isDigit).length = 0 →
        extractProductCode line = []) ∧
    (∀ line : List Char, isAllDigits line = false →
        restAfterTarget line = none →
        extractProductCode line = []) ∧
    scanIDsStr ["123456"] = ["123456"] ∧
    scanIDsStr ["https://site/x?urunno=98765&y=1"] = ["98765"] ∧
    scanIDsStr ["# comment"] = [] ∧
    scanIDsStr [""] = [] ∧
    scanIDsStr ["urunno=abc"] = [] := by
  refine ⟨?_, ?_, ?_, ?_, by decide, by decide, by decide, by decide, by decide⟩
  · intro line h
    simp [extractProductCode, h]
  · intro line rest h1 h2 h3
    simp [extractProductCode, h1, h2, h3]
  · intro line rest h1 h2 h3
    simp [extractProductCode, h1, h2, h3]
  · intro line h1 h2
    simp [extractProductCode, h1, h2]

/-- Witness for C3: rule 1 applied to the all-digit line `"42"`. -/
theorem C3_extraction_witness : extractProductCode ['4', '2'] = ['4', '2'] :=
  C3_extraction_rules.1 ['4', '2'] (by decide)

theorem isDigit_not_ws (c : Char) (h : c.isDigit = true) :
    c.isWhitespace = false := by
  cases hw : c.isWhitespace
  · rfl
  · exfalso
    have hcase : ((c = ' ' ∨ c = '\t') ∨ c = '\r') ∨ c = '\n' := by
      simpa [Char.isWhitespace] using hw
    rcases hcase with ((rfl | rfl) | rfl) | rfl <;> exact absurd h (by decide)

theorem isDigit_ne_hash (c : Char) (h : c.isDigit = true) : c ≠ '#' :=
  fun hc => absurd (hc ▸ h) (by decide)

theorem dropWhile_ws_eq_self (l : List Char)
    (h : ∀ c ∈ l, c.isDigit = true) :
    l.dropWhile Char.isWhitespace = l := by
  cases l with
  | nil => rfl
  | cons c cs =>
    rw [List.dropWhile_cons]
    simp [isDigit_not_ws c (h c (List.mem_cons_self c cs))]

theorem trimSpace_of_digits (l : List Char)
    (h : ∀ c ∈ l, c.isDigit = true) : trimSpace l = l := by
  unfold trimSpace
  rw [dropWhile_ws_eq_self l h,
    dropWhile_ws_eq_self l.reverse (fun c hc => h c (List.mem_reverse.mp hc)),
    List.reverse_reverse]

/-- Whatever `extractProductCode` returns consists of digits only
(possibly the empty sentinel). -/
theorem extract_all_digits (l : List Char) :
    ∀ c ∈ extractProductCode l, c.isDigit = true := by
  intro c hc
  unfold extractProductCode at hc
  by_cases h : isAllDigits l
  · rw [if_pos h] at hc
    unfold isAllDigits at h
    split at h
    · exact absurd h (by simp)
    · exact List.all_eq_true.mp h c hc
  · rw [if_neg h] at hc
    rcases hr : restAfterTarget l with _ | rest
    · rw [hr] at hc
      simp at hc
    · rw [hr] at hc
      simp only at hc
      split at hc
      · exact List.mem_takeWhile_imp hc
      · simp at hc

/-- Every identifier produced by `scanIDs` is non-empty and
all-digit. -/
theorem scanIDs_mem (lines : List (List Char)) (id : List Char)
    (hm : id ∈ scanIDs lines) :
    id ≠ [] ∧ ∀ c ∈ id, c.isDigit = true := by
  unfold scanIDs at hm
  rw [List.mem_filterMap] at hm
  obtain ⟨raw, _, heq⟩ := hm
  simp only at heq
  split at heq
  · exact absurd heq (by simp)
  · split at heq
    · exact absurd heq (by simp)
    · split at heq
      · exact absurd heq (by simp)
      · rename_i hne
        obtain rfl : extractProductCode (trimSpace raw) = id :=
          Option.some.inj heq
        exact ⟨hne, extract_all_digits _⟩

/-- A non-empty all-digit line passes the scanner unchanged: it is not
blank after trimming, does not start with `#`, and rule 1 returns it
whole. -/
theorem scanIDs_of_digit_lines (ids : List (List Char))
    (h : ∀ id ∈ ids, id ≠ [] ∧ ∀ c ∈ id, c.isDigit = true) :
    scanIDs ids = ids := by
  induction ids with
  | nil => rfl
  | cons a as ih =>
    obtain ⟨hne, hdig⟩ := h a (List.mem_cons_self a as)
    have htrim : trimSpace a = a := trimSpace_of_digits a hdig
    have hall : isAllDigits a = true := by
      unfold isAllDigits
      rw [if_neg (by simpa using hne)]
      exact List.all_eq_true.mpr hdig
    have hhead : a.head? ≠ some '#' := by
      rcases a with _ | ⟨c, cs⟩
      · exact absurd rfl hne
      · intro hc
        exact isDigit_ne_hash c (hdig c (List.mem_cons_self c cs))
          (Option.some.inj hc)
    have hex : extractProductCode a = a := by
      simp [extractProductCode, hall]
    unfold scanIDs
    rw [List.filterMap_cons]
    simp only [htrim, hex]
    rw [if_neg hne, if_neg hhead, if_neg hne]
    have := ih (fun id hid => h id (List.mem_cons_of_mem a hid))
    unfold scanIDs at this
    rw [this]

/-- C6: identifier extraction is idempotent — re-scanning its own
output (one identifier per line) returns the same list, because every
extracted identifier is a non-empty all-digit line and rule 1 returns
such a line whole. -/
theorem C6_extraction_idempotent (lines : List (List Char)) :
    scanIDs (scanIDs lines) = scanIDs lines :=
  scanIDs_of_digit_lines (scanIDs lines) (fun id hm => scanIDs_mem lines id hm)

/-- C10: only the first occurrence of `"urunno="` counts — when the
character right after it is not a digit the line yields nothing, even
if a later occurrence is followed by digits, as on the claim's input
`"urunno=xurunno=123"`. -/
theorem C10_first_marker_only :
    (∀ line rest : List Char, isAllDigits line = false →
        restAfterTarget line = some rest →
        rest.head?.all (fun d => !d.isDigit) = true →
        extractProductCode line = []) ∧
    restAfterTarget "urunno=xurunno=123".toList = some "xurunno=123".toList ∧
    extractProductCode "urunno=xurunno=123".toList = [] := by
  refine ⟨?_, by decide, by decide⟩
  intro line rest h1 h2 h3
  have htw : rest.takeWhile Char.isDigit = [] := by
    rcases rest with _ | ⟨d, ds⟩
    · rfl
    · simp only [List.head?, Option.all_some, Bool.not_eq_eq_eq_not,
        Bool.not_true] at h3
      rw [List.takeWhile_cons, h3]
      simp
  simp [extractProductCode, h1, h2, htw]

/-- Witness for C10 on the claim's own input. -/
theorem C10_first_marker_witness :
    extractProductCode "urunno=xurunno=123".toList = [] :=
  C10_first_marker_only.1 "urunno=xurunno=123".toList "xurunno=123".toList
    (by decide) (by decide) (by decide)

/-- The clamped branch of `fitRect`, as an explicit record. -/
theorem fitRect_clamped (iw ih cw ch p x y : ℚ)
    (h : (cw - p) * (ih / iw) > ch - p) :
    fitRect iw ih cw ch p x y =
      { w := (ch - p) / (ih / iw), h := ch - p
        cx := x + (cw - (ch - p) / (ih / iw)) / 2
        cy := y + (ch - (ch - p)) / 2 } := by
  simp only [fitRect, if_pos h]

/-- The unclamped branch of `fitRect`, as an explicit record. -/
theorem fitRect_unclamped (iw ih cw ch p x y : ℚ)
    (h : ¬ (cw - p) * (ih / iw) > ch - p) :
    fitRect iw ih cw ch p x y =
      { w := cw - p, h := (cw - p) * (ih / iw)
        cx := x + (cw - (cw - p)) / 2
        cy := y + (ch - (cw - p) * (ih / iw)) / 2 } := by
  simp only [fitRect, if_neg h]

/-- C2 as stated is false: with intrinsic size 1×1 and a 10×20 cell
with padding 10, the content width is 0, both display dimensions come
out 0, and `displayW/displayH` is not `iw/ih` (in `float64` it would be
NaN).  The claim needs the padded content dimensions to be positive. -/
theorem C2_fit_counterexample :
    (fitRect 1 1 10 20 10 0 0).w / (fitRect 1 1 10 20 10 0 0).h
      ≠ (1 : ℚ) / 1 := by
  rw [fitRect_unclamped 1 1 10 20 10 0 0 (by norm_num)]
  norm_num

/-- C2 amended: when additionally `padding < cellWidth` and
`padding < cellHeight`, the width-first, height-clamped-second
computation preserves the aspect ratio, fits inside the padded content
area, is centered in the cell, and clamps exactly when the candidate
height exceeds `cellHeight - padding`. -/
theorem C2_fit_amended (iw ih cellWidth cellHeight padding x y : ℚ)
    (r : FitRect) (hr : r = fitRect iw ih cellWidth cellHeight padding x y)
    (hiw : 0 < iw) (hih : 0 < ih)
    (hpw : padding < cellWidth) (hph : padding < cellHeight) :
    r.w / r.h = iw / ih ∧
    r.w ≤ cellWidth - padding ∧
    r.h ≤ cellHeight - padding ∧
    r.cx = x + (cellWidth - r.w) / 2 ∧
    r.cy = y + (cellHeight - r.h) / 2 ∧
    ((cellWidth - padding) * (ih / iw) ≤ cellHeight - padding →
      r.w = cellWidth - padding ∧ r.h = (cellWidth - padding) * (ih / iw)) ∧
    (cellHeight - padding < (cellWidth - padding) * (ih / iw) →
      r.h = cellHeight - padding ∧ r.w = (cellHeight - padding) / (ih / iw)) := by
  have hiw0 : iw ≠ 0 := ne_of_gt hiw
  have hih0 : ih ≠ 0 := ne_of_gt hih
  have haspect : 0 < ih / iw := div_pos hih hiw
  have hcw : 0 < cellWidth - padding := by linarith
  have hch : 0 < cellHeight - padding := by linarith
  by_cases hcl : (cellWidth - padding) * (ih / iw) > cellHeight - padding
  · rw [hr, fitRect_clamped _ _ _ _ _ _ _ hcl]
    refine ⟨?_, ?_, le_refl _, rfl, by ring_nf, ?_, ?_⟩
    · have hch0 : cellHeight - padding ≠ 0 := ne_of_gt hch
      field_simp
      ring
    · exact le_of_lt ((div_lt_iff₀ haspect).mpr (by linarith))
    · intro hle; exact absurd hcl (not_lt.mpr hle)
    · intro _; exact ⟨rfl, rfl⟩
  · rw [hr, fitRect_unclamped _ _ _ _ _ _ _ hcl]
    refine ⟨?_, le_refl _, not_lt.mp hcl, by ring_nf, rfl, ?_, ?_⟩
    · have hcw0 : cellWidth - padding ≠ 0 := ne_of_gt hcw
      field_simp
      ring
    · intro _; exact ⟨rfl, rfl⟩
    · intro hlt; exact absurd hlt (not_lt.mpr (not_lt.mp hcl))

/-- Witness for C2 amended at iw=2, ih=1, cell 12×12, padding 2: the
unclamped branch gives a 10×5 rectangle with the 2:1 aspect ratio. -/
theorem C2_fit_witness :
    (fitRect 2 1 12 12 2 0 0).w / (fitRect 2 1 12 12 2 0 0).h
        = (2 : ℚ) / 1 ∧
    (fitRect 2 1 12 12 2 0 0).w ≤ 12 - 2 := by
  have h := C2_fit_amended 2 1 12 12 2 0 0 (fitRect 2 1 12 12 2 0 0) rfl
    (by norm_num) (by norm_num) (by norm_num) (by norm_num)
  exact ⟨h.1, h.2.1⟩

/-- Every replacement character in the `toASCII` table is ASCII. -/
theorem trTable_out_ascii (a b : Char) (h : trTable a = some b) :
    isASCII b = true := by
  unfold trTable at h
  split at h <;> (try cases h) <;> decide

/-- Every character the table rewrites is one of the twelve Turkish
letters, and each of those has an entry. -/
theorem turkish_has_entry : ∀ a ∈ turkishChars, (trTable a).isSome = true := by
  decide

/-- C9 as stated is false: `toASCII` only rewrites the twelve Turkish
diacritic letters; any other non-ASCII character passes through, as
for the input `"é"`. -/
theorem C9_toASCII_counterexample :
    toASCII "é" = "é" ∧ ("é".toList.all isASCII) = false := by
  constructor
  · rfl
  · decide

/-- C9 amended: the output of `toASCII` is all-ASCII provided every
input character is ASCII or one of the twelve Turkish letters of the
replacement table; those letters map to unaccented ASCII Latin
letters. -/
theorem C9_toASCII_amended (s : String)
    (h : ∀ c ∈ s.toList, isASCII c = true ∨ c ∈ turkishChars) :
    ∀ c ∈ (toASCII s).toList, isASCII c = true := by
  intro c hc
  have hc' : c ∈ s.toList.map (fun a => (trTable a).getD a) := hc
  rw [List.mem_map] at hc'
  obtain ⟨a, ha, rfl⟩ := hc'
  rcases htr : trTable a with _ | b
  · simp only [htr, Option.getD_none]
    rcases h a ha with hA | hT
    · exact hA
    · have := turkish_has_entry a hT
      rw [htr] at this
      exact absurd this (by decide)
  · simp only [htr, Option.getD_some]
    exact trTable_out_ascii a b htr

/-- Witness for C9 amended on the Turkish input `"Çağrı"`. -/
theorem C9_toASCII_witness : ((toASCII "Çağrı").toList.all isASCII) = true := by
  have h := C9_toASCII_amended "Çağrı" (by decide)
  rw [List.all_eq_true]
  exact fun c hc => h c hc

theorem goToUpper_ne_empty (s : String) (h : s ≠ "") : goToUpper s ≠ "" := by
  intro he
  apply h
  have hdata : s.toList.map Char.toUpper = [] := congrArg String.data he
  have : s.toList = [] := List.map_eq_nil_iff.mp hdata
  exact String.ext this

/-- C7: `detectFormat` implements the closed mapping — "JPG" on decode
failure and for jpeg, "PNG" for png, the uppercased format name
otherwise — and (the decoders registered by the blank imports all
reporting non-empty format names) never returns an empty tag.  It is
total, so it never fails. -/
theorem C7_detectFormat (decode : Bytes → Option ImgConfig) (data : Bytes) :
    (decode data = none → detectFormat decode data = "JPG") ∧
    (∀ cfg, decode data = some cfg → cfg.format = "jpeg" →
        detectFormat decode data = "JPG") ∧
    (∀ cfg, decode data = some cfg → cfg.format = "png" →
        detectFormat decode data = "PNG") ∧
    (∀ cfg, decode data = some cfg → cfg.format ≠ "jpeg" →
        cfg.format ≠ "png" →
        detectFormat decode data = goToUpper cfg.format) ∧
    ((∀ cfg, decode data = some cfg → cfg.format ≠ "") →
        detectFormat decode data ≠ "") := by
  refine ⟨?_, ?_, ?_, ?_, ?_⟩
  · intro h; simp [detectFormat, h]
  · intro cfg h hf; simp [detectFormat, h, hf]
  · intro cfg h hf; simp [detectFormat, h, hf]
  · intro cfg h hf1 hf2; simp [detectFormat, h, hf1, hf2]
  · intro hne
    rcases hd : decode data with _ | cfg
    · simp [detectFormat, hd]
    · by_cases h1 : cfg.format = "jpeg"
      · simp [detectFormat, hd, h1]
      · by_cases h2 : cfg.format = "png"
        · simp [detectFormat, hd, h1, h2]
        · simp only [detectFormat, hd, h1, h2, if_false]
          exact goToUpper_ne_empty cfg.format (hne cfg hd)

/-- Witness for C7: undecodable bytes default to the "JPG" tag. -/
theorem C7_detectFormat_witness :
    detectFormat (fun _ => none) [0] = "JPG" :=
  (C7_detectFormat (fun _ => none) [0]).1 rfl

/-- C4: the primary URL is attempted first; the backup is attempted
exactly when the primary fails, and then exactly once; on backup
success the result is the backup's bytes with the primary not retried;
when both fail the result is the not-found error after exactly the two
attempts `[primary, backup]`. -/
theorem C4_fetch_fallback (net : String → Option Bytes)
    (decode : Bytes → Option ImgConfig) (id : String) :
    (∀ data, net (primaryURL id) = some data →
      fetchDRImage net decode id
        = (some (data, detectFormat decode data), [primaryURL id])) ∧
    (∀ data, net (primaryURL id) = none → net (backupURL id) = some data →
      fetchDRImage net decode id
        = (some (data, detectFormat decode data),
            [primaryURL id, backupURL id])) ∧
    (net (primaryURL id) = none → net (backupURL id) = none →
      fetchDRImage net decode id = (none, [primaryURL id, backupURL id])) := by
  refine ⟨?_, ?_, ?_⟩
  · intro data h; simp [fetchDRImage, h]
  · intro data h1 h2; simp [fetchDRImage, h1, h2]
  · intro h1 h2; simp [fetchDRImage, h1, h2]

/-- Witness for C4: a network on which both URLs fail yields the
not-found result after the two attempts. -/
theorem C4_fetch_witness :
    fetchDRImage (fun _ => none) (fun _ => none) "5"
      = (none, [primaryURL "5", backupURL "5"]) :=
  (C4_fetch_fallback (fun _ => none) (fun _ => none) "5").2.2 rfl rfl

/-- C5 as stated is false on the main rendering path: for fetched
bytes whose header cannot be decoded the format tag does default to
"JPG", but the assembler re-decodes the header and draws the
`"INVALID FORMAT"` placeholder instead of attempting an image draw
(main.go lines 274–277). -/
theorem C5_render_counterexample :
    detectFormat (fun _ => none) [7] = "JPG" ∧
    (renderItem (fun _ => some [7]) (fun _ => none) 10 10 0 0 "42").1
      = .invalidFormat ∧
    ((renderItem (fun _ => some [7]) (fun _ => none) 10 10 0 0 "42").1).isImageDraw
      = false :=
  ⟨rfl, rfl, rfl⟩

/-- C5 amended: `detectFormat` defaults undecodable bytes to the "JPG"
tag, but the main rendering path abandons the image placement for such
bytes, drawing the `"INVALID FORMAT"` placeholder; an image draw is
attempted exactly when the fetched bytes' header decodes. -/
theorem C5_render_amended (net : String → Option Bytes)
    (decode : Bytes → Option ImgConfig) (cw ch x y : ℚ) (id : String) :
    (∀ data, decode data = none → detectFormat decode data = "JPG") ∧
    (∀ data fmt trace,
      fetchDRImage net decode id = (some (data, fmt), trace) →
      decode data = none →
      renderItem net decode cw ch x y id = (.invalidFormat, trace)) ∧
    (∀ data fmt trace cfg,
      fetchDRImage net decode id = (some (data, fmt), trace) →
      decode data = some cfg →
      renderItem net decode cw ch x y id
        = (.imageDraw fmt
            (fitRect (cfg.width : ℚ) (cfg.height : ℚ) cw ch
              contentPaddingMM x y),
          trace)) := by
  refine ⟨?_, ?_, ?_⟩
  · intro data h; simp [detectFormat, h]
  · intro data fmt trace hfetch hdec
    unfold renderItem
    rw [hfetch]
    simp [hdec]
  · intro data fmt trace cfg hfetch hdec
    unfold renderItem
    rw [hfetch]
    simp [hdec]

/-- Witness for C5 amended: fetched but undecodable bytes produce the
placeholder, not an image draw. -/
theorem C5_render_witness :
    renderItem (fun _ => some [7]) (fun _ => none) 10 10 0 0 "42"
      = (.invalidFormat, [primaryURL "42"]) :=
  (C5_render_amended (fun _ => some [7]) (fun _ => none) 10 10 0 0 "42").2.1
    [7] "JPG" [primaryURL "42"] rfl rfl

/-- C8: grid-size parsing succeeds exactly when the trimmed,
lower-cased input splits on `"x"` into exactly two parts that each
parse (via `strconv.Atoi`) as a positive integer, returning that pair;
and when it fails, the main pipeline stops with the configuration
error and an empty network trace — no network activity happens. -/
theorem C8_parseGridSize (value : String) :
    (∀ r c : Int, parseGridSize value = .ok (r, c) ↔
      ((gridParts value).length = 2 ∧
       goAtoi ((gridParts value).getD 0 []) = some r ∧ 0 < r ∧
       goAtoi ((gridParts value).getD 1 []) = some c ∧
       0 < c)) ∧
    (∀ (net : String → Option Bytes) (decode : Bytes → Option ImgConfig)
        (lines : List (List Char)) (e : String),
      parseGridSize value = .error e →
      runMain net decode value lines = (.error e, [])) := by
  constructor
  · intro r c
    constructor
    · intro h
      unfold parseGridSize at h
      split at h
      · exact absurd h (by simp)
      · rename_i hlen
        rcases ha : goAtoi ((gridParts value).getD 0 []) with _ | rows
        · rw [ha] at h
          exact absurd h (by simp)
        · rcases hb : goAtoi ((gridParts value).getD 1 []) with _ | cols
          · rw [ha, hb] at h
            simp only at h
            split at h <;> exact absurd h (by simp)
          · rw [ha, hb] at h
            simp only at h
            split at h
            · exact absurd h (by simp)
            · split at h
              · exact absurd h (by simp)
              · rename_i hrpos hcpos
                obtain ⟨rfl, rfl⟩ : rows = r ∧ cols = c := by
                  have := Except.ok.inj h
                  exact ⟨congrArg Prod.fst this, congrArg Prod.snd this⟩
                exact ⟨by omega, rfl, by omega, rfl, by omega⟩
    · rintro ⟨hlen, ha, hr, hb, hc⟩
      unfold parseGridSize
      rw [if_neg (by omega)]
      rw [ha, hb]
      simp only
      rw [if_neg (by omega), if_neg (by omega)]
  · intro net decode lines e h
    unfold runMain
    rw [h]

/-- Witness for C8: `"3x6"` parses to (3, 6); the invalid spec `"bad"`
is rejected with an empty network trace. -/
theorem C8_parseGridSize_witness :
    parseGridSize "3x6" = .ok (3, 6) ∧
    runMain (fun _ => none) (fun _ => none) "bad" []
      = (.error "grid size must be rowxcol", []) := by
  constructor
  · exact ((C8_parseGridSize "3x6").1 3 6).mpr
      ⟨by decide, by decide, by decide, by decide, by decide⟩
  · exact (C8_parseGridSize "bad").2 (fun _ => none) (fun _ => none) []
      "grid size must be rowxcol" rfl

end Kapak
